import Mathlib

/-!
Shallow embedding of `libtransmission`'s byte-buffer abstraction
(`src/libtransmission/tr-buffer.h`): the `BufferReader` / `BufferWriter`
capability interfaces, the evbuffer-backed `Buffer`, and the
small-vector-backed `SmallBuffer<N>`.

Bytes are modelled as `Nat` values below 256.  The libevent `evbuffer`
and the socket layer are external to the repository tree, so their
primitives are modelled from the specification and marked
`Modelled from the spec:` in their doc comments; everything else is a
direct translation of the header.
-/

namespace Transmission

/-- Value of a byte string read in network (big-endian) byte order:
this is what `ntohs` / `ntohl` / `tr_ntohll` yield after the bytes were
`memcpy`-ed into a zero-initialised integer, on any host endianness. -/
def beVal (bytes : List Nat) : Nat :=
  bytes.foldl (fun acc b => acc * 256 + b) 0

/-- Big-endian (network byte order) encoding of `x` on `w` bytes: the
object representation of `htons hs` / `htonl hl` / `tr_htonll hll`. -/
def beBytes : Nat → Nat → List Nat
  | 0, _ => []
  | w + 1, x => beBytes w (x / 256) ++ [x % 256]

/-- Extend a byte list with zero bytes up to length `n` (no-op when it
is already at least that long).  Freshly granted buffer memory is
modelled as zero-filled. -/
def padZero (l : List Nat) (n : Nat) : List Nat :=
  l ++ List.replicate (n - l.length) 0

/-- The virtual operations of `BufferReader<value_type>`: `size()`,
`data()` and `drain()`, through which every derived reader operation is
defined in the header. -/
structure ReaderOps (σ : Type) where
  size : σ → Nat
  data : σ → List Nat
  drain : σ → Nat → σ

/-- `BufferReader::to_string`: builds `std::string{data(), size()}`.
The member is `const`; the state is returned unchanged. -/
def ReaderOps.to_string (R : ReaderOps σ) (s : σ) : List Nat × σ :=
  ((R.data s).take (R.size s), s)

/-- `BufferReader::starts_with(needle)`:
`n_bytes <= size() && std::equal(needle_begin, needle_end, data())`. -/
def ReaderOps.starts_with (R : ReaderOps σ) (s : σ) (needle : List Nat) : Bool :=
  decide (needle.length ≤ R.size s) && ((R.data s).take needle.length == needle)

/-- `BufferReader::to_buf(tgt, n_bytes)`: clamps `n_bytes` to `size()`,
copies that many bytes out of `data()`, drains them, and returns the
clamped count.  Result: (bytes copied, count, state after drain). -/
def ReaderOps.to_buf (R : ReaderOps σ) (s : σ) (n_bytes : Nat) : List Nat × Nat × σ :=
  let n := min n_bytes (R.size s)
  ((R.data s).take n, n, R.drain s n)

/-- Common body of `to_uint8/16/32/64` for a `w`-byte integer: a
zero-initialised `w`-byte temporary receives `to_buf(&tmp, w)` (the
available bytes land in its first, i.e. lowest-address, bytes), then the
network-to-host conversion reads the object representation big-endian. -/
def ReaderOps.to_uint_of_width (R : ReaderOps σ) (w : Nat) (s : σ) : Nat × σ :=
  let n := min w (R.size s)
  (beVal (padZero ((R.data s).take n) w), R.drain s n)

/-- `BufferReader::to_uint8`. -/
def ReaderOps.to_uint8 (R : ReaderOps σ) (s : σ) : Nat × σ :=
  R.to_uint_of_width 1 s

/-- `BufferReader::to_uint16` (via `ntohs`). -/
def ReaderOps.to_uint16 (R : ReaderOps σ) (s : σ) : Nat × σ :=
  R.to_uint_of_width 2 s

/-- `BufferReader::to_uint32` (via `ntohl`). -/
def ReaderOps.to_uint32 (R : ReaderOps σ) (s : σ) : Nat × σ :=
  R.to_uint_of_width 4 s

/-- `BufferReader::to_uint64` (via `tr_ntohll`). -/
def ReaderOps.to_uint64 (R : ReaderOps σ) (s : σ) : Nat × σ :=
  R.to_uint_of_width 8 s

/-- The virtual operations of `BufferWriter<value_type>`:
`reserve_space` returns the granted capacity alongside the new state,
`write_reserved` models the caller writing bytes through the returned
pointer into the reserved region, `commit_space` finalises bytes. -/
structure WriterOps (σ : Type) where
  reserve_space : σ → Nat → σ × Nat
  write_reserved : σ → List Nat → σ
  commit_space : σ → Nat → σ

/-- `BufferWriter::add(span_begin, span_len)`:
`reserve_space(span_len)`, `std::copy_n` into the granted region, then
`commit_space(span_len)`. -/
def WriterOps.add (W : WriterOps σ) (s : σ) (bytes : List Nat) : σ :=
  W.commit_space (W.write_reserved (W.reserve_space s bytes.length).1 bytes) bytes.length

/-- `BufferWriter::push_back(ch)`: `add(&ch, 1)`. -/
def WriterOps.push_back (W : WriterOps σ) (s : σ) (b : Nat) : σ :=
  W.add s [b]

/-- `BufferWriter::add_uint8(uch)`: `add(&uch, 1)`. -/
def WriterOps.add_uint8 (W : WriterOps σ) (s : σ) (x : Nat) : σ :=
  W.add s (beBytes 1 x)

/-- `BufferWriter::add_uint16(hs)`: appends the object representation
of `htons(hs)`, i.e. the 2 big-endian bytes of `hs`. -/
def WriterOps.add_uint16 (W : WriterOps σ) (s : σ) (x : Nat) : σ :=
  W.add s (beBytes 2 x)

/-- `BufferWriter::add_uint32(hl)`: appends the object representation
of `htonl(hl)`, i.e. the 4 big-endian bytes of `hl`. -/
def WriterOps.add_uint32 (W : WriterOps σ) (s : σ) (x : Nat) : σ :=
  W.add s (beBytes 4 x)

/-- `BufferWriter::add_uint64(hll)`: appends the object representation
of `tr_htonll(hll)`, i.e. the 8 big-endian bytes of `hll`. -/
def WriterOps.add_uint64 (W : WriterOps σ) (s : σ) (x : Nat) : σ :=
  W.add s (beBytes 8 x)

/-- Modelled from the spec: the libevent `evbuffer` backing `Buffer` is
not part of the repository tree.  Per the spec it is a segmented byte
store whose logical content is the committed, undrained byte sequence
(`content`); `scratch` holds the bytes currently sitting in the
reserved-but-uncommitted tail region granted by
`evbuffer_reserve_space`.  Segmentation is unobservable through the
modelled interface (`pullup` materialises the content contiguously). -/
structure EvBuffer where
  content : List Nat
  scratch : List Nat
  deriving Repr, DecidableEq

/-- `Buffer()` default constructor: an empty evbuffer. -/
def EvBuffer.empty : EvBuffer := ⟨[], []⟩

/-- `Buffer::size()`: `evbuffer_get_length`, the committed length. -/
def EvBuffer.size (b : EvBuffer) : Nat := b.content.length

/-- `Buffer::data()`: `evbuffer_pullup(buf_, -1)` materialises the
whole logical content contiguously. -/
def EvBuffer.data (b : EvBuffer) : List Nat := b.content

/-- Modelled from the spec: `Buffer::drain(n)` calls `evbuffer_drain`,
which removes the first `min(n, size())` bytes (`List.drop` clamps). -/
def EvBuffer.drain (b : EvBuffer) (n : Nat) : EvBuffer :=
  ⟨b.content.drop n, b.scratch⟩

/-- Modelled from the spec: `Buffer::reserve_space(n)` calls
`evbuffer_reserve_space`, which grants a writable tail region of
capacity at least `n` without changing the logical content. -/
def EvBuffer.reserve_space (b : EvBuffer) (n : Nat) : EvBuffer × Nat :=
  (⟨b.content, padZero b.scratch n⟩, (padZero b.scratch n).length)

/-- The caller writing `w` through the pointer granted by
`reserve_space`: overwrites the front of the reserved region. -/
def EvBuffer.write_reserved (b : EvBuffer) (w : List Nat) : EvBuffer :=
  ⟨b.content, w ++ b.scratch.drop w.length⟩

/-- Modelled from the spec: `Buffer::commit_space(n)` re-reserves the
same tail region (`evbuffer_reserve_space` with the same free tail
returns the same block), sets `iov_len = n` and commits: the first `n`
reserved bytes become part of the logical content. -/
def EvBuffer.commit_space (b : EvBuffer) (k : Nat) : EvBuffer :=
  ⟨b.content ++ (padZero b.scratch k).take k, (padZero b.scratch k).drop k⟩

/-- The `BufferReader` virtuals of `Buffer`. -/
def EvBuffer.reader : ReaderOps EvBuffer :=
  ⟨EvBuffer.size, EvBuffer.data, EvBuffer.drain⟩

/-- The `BufferWriter` virtuals of `Buffer`. -/
def EvBuffer.writer : WriterOps EvBuffer :=
  ⟨EvBuffer.reserve_space, EvBuffer.write_reserved, EvBuffer.commit_space⟩

/-- `Buffer::Buffer(T const& data)`: default-constructs then `add(data)`. -/
def EvBuffer.ofData (d : List Nat) : EvBuffer :=
  EvBuffer.writer.add EvBuffer.empty d

/-- The error object set by `tr_error_set` /
`tr_error_set_from_errno(ENOTCONN)`: the spec names the `ENOTCONN` case
`ConnectionClosed` and the platform-code case `TransportError`. -/
inductive TrError where
  | connectionClosed
  | transportError (code : Nat)
  deriving Repr, DecidableEq

/-- Modelled from the spec: the outcome of `evbuffer_read(buf, sockfd, n)`
on the endpoint.  `read` returning 0 signals orderly close, a negative
result is a platform failure with `EVUTIL_SOCKET_ERROR()` code, and a
positive result appends the bytes actually transferred. -/
inductive ReadOutcome where
  | closed
  | failure (code : Nat)
  | data (bytes : List Nat)
  deriving Repr, DecidableEq

/-- `Buffer::add_socket(sockfd, n_bytes, error)`: `res > 0` returns the
count with the bytes appended; `res == 0` sets the `ENOTCONN`
(connection-closed) error and returns 0; `res < 0` sets a transport
error with the platform code and returns 0.  The buffer is untouched in
the error branches. -/
def EvBuffer.add_socket (b : EvBuffer) (n_bytes : Nat) (outcome : ReadOutcome) :
    Nat × Option TrError × EvBuffer :=
  match outcome with
  | .data bytes =>
      if 0 < bytes.length then (bytes.length, none, ⟨b.content ++ bytes, b.scratch⟩)
      else (0, some .connectionClosed, b)
  | .closed => (0, some .connectionClosed, b)
  | .failure code => (0, some (.transportError code), b)

/-- Modelled from the spec: the outcome of
`evbuffer_write_atmost(buf, sockfd, n)` — either `k` bytes accepted by
the endpoint (`k` at most `min(n, size())`) or a platform failure.
Per the spec the written bytes are deliberately not drained: the caller
must drain explicitly on success. -/
inductive WriteOutcome where
  | wrote (k : Nat)
  | failure (code : Nat)
  deriving Repr, DecidableEq

/-- `Buffer::to_socket(sockfd, n_bytes, error)`: `res >= 0` returns the
count written; `res < 0` sets a transport error with the platform code
and returns 0.  The logical content is unchanged either way. -/
def EvBuffer.to_socket (b : EvBuffer) (n_bytes : Nat) (outcome : WriteOutcome) :
    Nat × Option TrError × EvBuffer :=
  match outcome with
  | .wrote k => (k, none, b)
  | .failure code => (0, some (.transportError code), b)

/-- `sfl::small_vector<value_type, N>::resize(n)` on a byte vector:
truncate or grow to length `n`, value-initialising (zeroing) any new
elements. -/
def listResize (l : List Nat) (n : Nat) : List Nat :=
  l.take n ++ List.replicate (n - l.length) 0

/-- State of `SmallBuffer<N>`: the backing `sfl::small_vector` contents
`buf` and `committed_size_`.  Whether the vector currently lives in its
inline storage or has spilled to the heap does not affect its element
sequence, so it is not part of the state. -/
structure SmallBufferState where
  buf : List Nat
  committed_size : Nat
  deriving Repr, DecidableEq

/-- A default-constructed `SmallBuffer`. -/
def SmallBufferState.empty : SmallBufferState := ⟨[], 0⟩

/-- `SmallBuffer::size()`: `committed_size_`. -/
def SmallBufferState.size (s : SmallBufferState) : Nat := s.committed_size

/-- `SmallBuffer::data()`: `std::data(buf_)`. -/
def SmallBufferState.data (s : SmallBufferState) : List Nat := s.buf

/-- `SmallBuffer::drain(n)`: clamps `n` to `size()`, erases that many
bytes from the front of the vector, and decreases `committed_size_`. -/
def SmallBufferState.drain (s : SmallBufferState) (n : Nat) : SmallBufferState :=
  let m := min n s.committed_size
  ⟨s.buf.drop m, s.committed_size - m⟩

/-- `SmallBuffer::reserve_space(n)`: `buf_.resize(committed_size_ + n)`
and return `(data() + committed_size_, capacity() - committed_size_)`.
`sfl::small_vector` keeps `capacity() = max(N, …) ≥ size()`; the model
takes the least capacity the container guarantees. -/
def SmallBufferState.reserve_space (N : Nat) (s : SmallBufferState) (n : Nat) :
    SmallBufferState × Nat :=
  let b2 := listResize s.buf (s.committed_size + n)
  (⟨b2, s.committed_size⟩, max N b2.length - s.committed_size)

/-- The caller writing `w` through the pointer granted by
`reserve_space`, i.e. at offset `committed_size_` into the vector. -/
def SmallBufferState.write_reserved (s : SmallBufferState) (w : List Nat) : SmallBufferState :=
  ⟨s.buf.take s.committed_size ++ w ++ s.buf.drop (s.committed_size + w.length),
    s.committed_size⟩

/-- `SmallBuffer::commit_space(n)`: `committed_size_ += n`. -/
def SmallBufferState.commit_space (s : SmallBufferState) (k : Nat) : SmallBufferState :=
  ⟨s.buf, s.committed_size + k⟩

/-- The `BufferReader` virtuals of `SmallBuffer<N>`. -/
def SmallBufferState.reader : ReaderOps SmallBufferState :=
  ⟨SmallBufferState.size, SmallBufferState.data, SmallBufferState.drain⟩

/-- The `BufferWriter` virtuals of `SmallBuffer<N>`. -/
def SmallBufferState.writer (N : Nat) : WriterOps SmallBufferState :=
  ⟨SmallBufferState.reserve_space N, SmallBufferState.write_reserved,
    SmallBufferState.commit_space⟩

/-- The logical content of a `SmallBuffer`: its first `size()` bytes. -/
def SmallBufferState.contents (s : SmallBufferState) : List Nat :=
  s.buf.take s.committed_size

/-- Well-formedness of a `SmallBuffer` state: the committed length never
exceeds the vector's length (`committed_size_ ≤ buf_.size()`), which
holds for every state reachable through the public interface. -/
def SmallBufferState.wf (s : SmallBufferState) : Prop :=
  s.committed_size ≤ s.buf.length

instance (s : SmallBufferState) : Decidable s.wf :=
  inferInstanceAs (Decidable (s.committed_size ≤ s.buf.length))

/-! ### Helper lemmas about the byte codec -/

theorem beBytes_length (w x : Nat) : (beBytes w x).length = w := by
  induction w generalizing x with
  | zero => rfl
  | succ w ih => simp [beBytes, ih]

theorem beVal_append_single (l : List Nat) (b : Nat) :
    beVal (l ++ [b]) = 256 * beVal l + b := by
  simp [beVal, List.foldl_append, Nat.mul_comm]

theorem beVal_beBytes (w x : Nat) : beVal (beBytes w x) = x % 256 ^ w := by
  induction w generalizing x with
  | zero => simp [beBytes, beVal, Nat.mod_one]
  | succ w ih =>
      rw [beBytes, beVal_append_single, ih, Nat.pow_succ, Nat.mul_comm (256 ^ w) 256,
        Nat.mod_mul]
      ring

theorem beVal_beBytes_of_lt {w x : Nat} (h : x < 256 ^ w) :
    beVal (beBytes w x) = x := by
  rw [beVal_beBytes, Nat.mod_eq_of_lt h]

theorem beVal_append_zeros (l : List Nat) (m : Nat) :
    beVal (l ++ List.replicate m 0) = beVal l * 256 ^ m := by
  induction m with
  | zero => simp
  | succ m ih =>
      rw [List.replicate_succ', ← List.append_assoc, beVal_append_single, ih,
        Nat.pow_succ]
      ring

theorem padZero_of_le {l : List Nat} {n : Nat} (h : n ≤ l.length) :
    padZero l n = l := by
  simp [padZero, Nat.sub_eq_zero_of_le h]

theorem padZero_length (l : List Nat) (n : Nat) :
    (padZero l n).length = max l.length n := by
  simp [padZero]
  omega

theorem listResize_length (l : List Nat) (n : Nat) :
    (listResize l n).length = n := by
  simp [listResize]
  omega

/-! ### Helper lemmas about the buffer operations -/

theorem EvBuffer.add_eq_ev (b : EvBuffer) (w : List Nat) :
    EvBuffer.writer.add b w =
      ⟨b.content ++ w, (padZero b.scratch w.length).drop w.length⟩ := by
  have hlen : w.length ≤ (w ++ (padZero b.scratch w.length).drop w.length).length := by
    simp
  simp only [WriterOps.add, EvBuffer.writer, EvBuffer.reserve_space,
    EvBuffer.write_reserved, EvBuffer.commit_space, padZero_of_le hlen,
    List.take_left, List.drop_left]

theorem SmallBufferState.add_eq_small {s : SmallBufferState} (N : Nat) (w : List Nat)
    (h : s.wf) :
    (SmallBufferState.writer N).add s w =
      ⟨s.buf.take s.committed_size ++ w, s.committed_size + w.length⟩ := by
  have hw : s.committed_size ≤ s.buf.length := h
  simp only [WriterOps.add, SmallBufferState.writer, SmallBufferState.reserve_space,
    SmallBufferState.write_reserved, SmallBufferState.commit_space]
  have h2 : (listResize s.buf (s.committed_size + w.length)).length =
      s.committed_size + w.length := listResize_length _ _
  have hc : s.committed_size ≤ (s.buf.take (s.committed_size + w.length)).length := by
    simp [List.length_take]
    omega
  rw [SmallBufferState.mk.injEq]
  refine ⟨?_, rfl⟩
  rw [List.drop_eq_nil_of_le (by omega), List.append_nil]
  simp only [listResize, List.take_append_of_le_length hc, List.take_take]
  congr 2
  omega

theorem SmallBufferState.add_contents {s : SmallBufferState} (N : Nat) (w : List Nat)
    (h : s.wf) :
    ((SmallBufferState.writer N).add s w).contents = s.contents ++ w ∧
      ((SmallBufferState.writer N).add s w).size = s.size + w.length ∧
      ((SmallBufferState.writer N).add s w).wf := by
  have hw : s.committed_size ≤ s.buf.length := h
  rw [SmallBufferState.add_eq_small N w h]
  have hc : (s.buf.take s.committed_size).length = s.committed_size := by
    simp [List.length_take]
    omega
  refine ⟨?_, rfl, ?_⟩
  · simp only [SmallBufferState.contents]
    rw [show s.committed_size + w.length = (s.buf.take s.committed_size).length + w.length
        by rw [hc], List.take_append, List.take_length]
  · simp only [SmallBufferState.wf]
    simp [hc]

theorem EvBuffer.add_beBytes_empty (w x : Nat) :
    EvBuffer.writer.add EvBuffer.empty (beBytes w x) = ⟨beBytes w x, []⟩ := by
  rw [EvBuffer.add_eq_ev]
  simp [EvBuffer.empty, padZero]

theorem EvBuffer.roundtrip (w x : Nat) (hx : x < 256 ^ w) :
    (EvBuffer.writer.add EvBuffer.empty (beBytes w x)).size = w ∧
      (EvBuffer.reader.to_uint_of_width w
        (EvBuffer.writer.add EvBuffer.empty (beBytes w x))).1 = x ∧
      (EvBuffer.reader.to_uint_of_width w
        (EvBuffer.writer.add EvBuffer.empty (beBytes w x))).2.size = 0 := by
  rw [EvBuffer.add_beBytes_empty]
  have hb : (beBytes w x).length = w := beBytes_length w x
  have hsz : EvBuffer.size ⟨beBytes w x, []⟩ = w := hb
  refine ⟨hsz, ?_, ?_⟩
  · simp only [ReaderOps.to_uint_of_width, EvBuffer.reader, hsz, Nat.min_self,
      EvBuffer.data]
    rw [List.take_of_length_le (Nat.le_of_eq hb), padZero_of_le (Nat.le_of_eq hb.symm)]
    exact beVal_beBytes_of_lt hx
  · simp only [ReaderOps.to_uint_of_width, EvBuffer.reader, hsz, Nat.min_self,
      EvBuffer.drain, EvBuffer.size]
    simp [hb]

theorem EvBuffer.to_uint_short_ev (w : Nat) (b : EvBuffer) (h : b.size < w) :
    (EvBuffer.reader.to_uint_of_width w b).1 = beVal b.content * 256 ^ (w - b.size) ∧
      (EvBuffer.reader.to_uint_of_width w b).2.content = [] ∧
      (EvBuffer.reader.to_uint_of_width w b).2.size = 0 := by
  have hle : b.content.length ≤ w := Nat.le_of_lt h
  refine ⟨?_, ?_, ?_⟩ <;>
    simp only [ReaderOps.to_uint_of_width, EvBuffer.reader, EvBuffer.size, EvBuffer.data,
      EvBuffer.drain, Nat.min_eq_right hle, List.take_length, List.drop_length,
      List.length_nil]
  exact beVal_append_zeros _ _

theorem SmallBufferState.to_uint_short_small (w : Nat) (s : SmallBufferState)
    (hwf : s.wf) (h : s.size < w) :
    (SmallBufferState.reader.to_uint_of_width w s).1 =
        beVal s.contents * 256 ^ (w - s.size) ∧
      (SmallBufferState.reader.to_uint_of_width w s).2.contents = [] ∧
      (SmallBufferState.reader.to_uint_of_width w s).2.size = 0 := by
  have hw : s.committed_size ≤ s.buf.length := hwf
  have hle : s.committed_size ≤ w := Nat.le_of_lt h
  have hclen : s.contents.length = s.committed_size := by
    simp [SmallBufferState.contents, List.length_take]
    omega
  simp only [ReaderOps.to_uint_of_width, SmallBufferState.reader, SmallBufferState.size,
    SmallBufferState.data, SmallBufferState.drain, Nat.min_eq_right hle]
  refine ⟨?_, ?_, ?_⟩
  · show beVal (padZero s.contents w) = _
    rw [padZero, beVal_append_zeros, hclen]
  · simp [SmallBufferState.contents, Nat.min_self]
  · simp [SmallBufferState.size, Nat.min_self]

theorem SmallBufferState.reserve_write_eq {s : SmallBufferState} (N : Nat)
    (w : List Nat) (h : s.wf) :
    (SmallBufferState.reserve_space N s w.length).1.write_reserved w =
      ⟨s.buf.take s.committed_size ++ w, s.committed_size⟩ := by
  have hw : s.committed_size ≤ s.buf.length := h
  simp only [SmallBufferState.reserve_space, SmallBufferState.write_reserved]
  have h2 : (listResize s.buf (s.committed_size + w.length)).length =
      s.committed_size + w.length := listResize_length _ _
  have hc : s.committed_size ≤ (s.buf.take (s.committed_size + w.length)).length := by
    simp [List.length_take]
    omega
  rw [SmallBufferState.mk.injEq]
  refine ⟨?_, rfl⟩
  rw [List.drop_eq_nil_of_le (by omega), List.append_nil]
  simp only [listResize, List.take_append_of_le_length hc, List.take_take]
  congr 2
  omega

/-! ### Claim theorems -/

/-- Claim C1: a `to_socket(endpoint, n, error)` call that returns a count `k`
of bytes written returns exactly `k`, sets no error, and leaves the buffer's
`size()` and logical content unchanged: the written bytes are not drained and
the caller must drain them explicitly after a successful write. -/
theorem claim_C1 (b : EvBuffer) (n k : Nat) (h : k ≤ min n b.size) :
    (b.to_socket n (.wrote k)).1 = k ∧
      (b.to_socket n (.wrote k)).2.1 = none ∧
      (b.to_socket n (.wrote k)).2.2 = b ∧
      (b.to_socket n (.wrote k)).2.2.size = b.size ∧
      (b.to_socket n (.wrote k)).2.2.content = b.content :=
  ⟨rfl, rfl, rfl, rfl, rfl⟩

/-- Witness for C1 at a concrete buffer: writing 2 of the 3 buffered bytes
to the endpoint reports 2 and leaves the 3 bytes in place. -/
theorem claim_C1_witness :
    (2 ≤ min 5 (EvBuffer.size ⟨[10, 20, 30], []⟩)) ∧
      ((EvBuffer.to_socket ⟨[10, 20, 30], []⟩ 5 (.wrote 2)).1 = 2 ∧
        (EvBuffer.to_socket ⟨[10, 20, 30], []⟩ 5 (.wrote 2)).2.1 = none ∧
        (EvBuffer.to_socket ⟨[10, 20, 30], []⟩ 5 (.wrote 2)).2.2 = ⟨[10, 20, 30], []⟩ ∧
        (EvBuffer.to_socket ⟨[10, 20, 30], []⟩ 5 (.wrote 2)).2.2.size =
          EvBuffer.size ⟨[10, 20, 30], []⟩ ∧
        (EvBuffer.to_socket ⟨[10, 20, 30], []⟩ 5 (.wrote 2)).2.2.content = [10, 20, 30]) :=
  ⟨by decide, claim_C1 ⟨[10, 20, 30], []⟩ 5 2 (by decide)⟩

/-- Claim C5: `add_socket` returns 0 with a `ConnectionClosed` error on
orderly close, returns 0 with a `TransportError(code)` on a failed read, and
returns the actual transferred count (possibly less than `n`) with no error
on a normal partial read, appending exactly the transferred bytes. -/
theorem claim_C5 (b : EvBuffer) (n code : Nat) (bytes : List Nat)
    (hne : bytes ≠ []) (hlen : bytes.length ≤ n) :
    b.add_socket n .closed = (0, some .connectionClosed, b) ∧
      b.add_socket n (.failure code) = (0, some (.transportError code), b) ∧
      (b.add_socket n (.data bytes)).1 = bytes.length ∧
      (b.add_socket n (.data bytes)).2.1 = none ∧
      (b.add_socket n (.data bytes)).2.2.content = b.content ++ bytes := by
  have hpos : 0 < bytes.length := List.length_pos.mpr hne
  refine ⟨rfl, rfl, ?_, ?_, ?_⟩ <;> simp [EvBuffer.add_socket, hpos]

/-- Witness for C5: reading 2 bytes when 4 were requested appends them with
no error; close and failure outcomes return 0 with the documented errors. -/
theorem claim_C5_witness :
    (([7, 9] : List Nat) ≠ [] ∧ ([7, 9] : List Nat).length ≤ 4) ∧
      (EvBuffer.add_socket ⟨[1], []⟩ 4 .closed = (0, some .connectionClosed, ⟨[1], []⟩) ∧
        EvBuffer.add_socket ⟨[1], []⟩ 4 (.failure 104) =
          (0, some (.transportError 104), ⟨[1], []⟩) ∧
        (EvBuffer.add_socket ⟨[1], []⟩ 4 (.data [7, 9])).1 = ([7, 9] : List Nat).length ∧
        (EvBuffer.add_socket ⟨[1], []⟩ 4 (.data [7, 9])).2.1 = none ∧
        (EvBuffer.add_socket ⟨[1], []⟩ 4 (.data [7, 9])).2.2.content = [1] ++ [7, 9]) :=
  ⟨⟨by decide, by decide⟩, claim_C5 ⟨[1], []⟩ 4 104 [7, 9] (by decide) (by decide)⟩

/-- Claim C6: for both buffer kinds, `drain(d)` removes exactly the first
`min(d, size())` bytes, decreasing `size()` by `min(d, size())` and leaving
the remaining bytes in order; draining more than is available empties the
buffer and is never an error. -/
theorem claim_C6 (b : EvBuffer) (s : SmallBufferState) (d e : Nat) (hs : s.wf) :
    ((b.drain d).size = b.size - min d b.size ∧
      (b.drain d).content = b.content.drop (min d b.size) ∧
      (b.size ≤ d → (b.drain d).content = [])) ∧
    ((s.drain e).size = s.size - min e s.size ∧
      (s.drain e).contents = s.contents.drop (min e s.size) ∧
      (s.size ≤ e → (s.drain e).contents = []) ∧
      (s.drain e).wf) := by
  have hw : s.committed_size ≤ s.buf.length := hs
  refine ⟨⟨?_, ?_, ?_⟩, ?_, ?_, ?_, ?_⟩
  · simp [EvBuffer.drain, EvBuffer.size]
    omega
  · rcases Nat.le_total d b.content.length with hd | hd
    · simp [EvBuffer.drain, EvBuffer.size, Nat.min_eq_left hd]
    · rw [EvBuffer.drain, EvBuffer.size, Nat.min_eq_right hd]
      simp [List.drop_eq_nil_of_le hd]
  · intro hd
    simp [EvBuffer.drain, List.drop_eq_nil_of_le hd]
  · simp [SmallBufferState.drain, SmallBufferState.size]
  · simp only [SmallBufferState.drain, SmallBufferState.contents, SmallBufferState.size,
      List.drop_take]
  · intro hd
    have hd2 : s.committed_size ≤ e := hd
    simp [SmallBufferState.drain, SmallBufferState.contents, SmallBufferState.size,
      Nat.min_eq_right hd2]
  · simp only [SmallBufferState.drain, SmallBufferState.wf]
    simp
    omega

/-- Witness for C6 at concrete buffers: draining 2 of 3 bytes keeps the last
byte; draining 5 of 3 empties the small buffer. -/
theorem claim_C6_witness :
    SmallBufferState.wf ⟨[1, 2, 3], 3⟩ ∧
      (((EvBuffer.drain ⟨[4, 5, 6], []⟩ 2).size =
          EvBuffer.size ⟨[4, 5, 6], []⟩ - min 2 (EvBuffer.size ⟨[4, 5, 6], []⟩) ∧
        (EvBuffer.drain ⟨[4, 5, 6], []⟩ 2).content =
          List.drop (min 2 (EvBuffer.size ⟨[4, 5, 6], []⟩)) [4, 5, 6] ∧
        (EvBuffer.size ⟨[4, 5, 6], []⟩ ≤ 2 → (EvBuffer.drain ⟨[4, 5, 6], []⟩ 2).content = [])) ∧
      ((SmallBufferState.drain ⟨[1, 2, 3], 3⟩ 5).size =
          SmallBufferState.size ⟨[1, 2, 3], 3⟩ -
            min 5 (SmallBufferState.size ⟨[1, 2, 3], 3⟩) ∧
        (SmallBufferState.drain ⟨[1, 2, 3], 3⟩ 5).contents =
          List.drop (min 5 (SmallBufferState.size ⟨[1, 2, 3], 3⟩))
            (SmallBufferState.contents ⟨[1, 2, 3], 3⟩) ∧
        (SmallBufferState.size ⟨[1, 2, 3], 3⟩ ≤ 5 →
          (SmallBufferState.drain ⟨[1, 2, 3], 3⟩ 5).contents = []) ∧
        (SmallBufferState.drain ⟨[1, 2, 3], 3⟩ 5).wf)) :=
  ⟨by decide, claim_C6 ⟨[4, 5, 6], []⟩ ⟨[1, 2, 3], 3⟩ 2 5 (by decide)⟩

/-- Claim C8: for both buffer kinds, `starts_with(needle)` is true iff the
needle is empty, or `len(needle) ≤ size()` and the first `len(needle)` bytes
of the buffer equal the needle byte-for-byte; in particular it is false
whenever `len(needle) > size()`. -/
theorem claim_C8 (b : EvBuffer) (s : SmallBufferState) (needle nd : List Nat) :
    (EvBuffer.reader.starts_with b needle = true ↔
      (needle = [] ∨
        (needle.length ≤ b.size ∧ b.content.take needle.length = needle))) ∧
    (b.size < needle.length → EvBuffer.reader.starts_with b needle = false) ∧
    (SmallBufferState.reader.starts_with s nd = true ↔
      (nd = [] ∨ (nd.length ≤ s.size ∧ s.contents.take nd.length = nd))) ∧
    (s.size < nd.length → SmallBufferState.reader.starts_with s nd = false) := by
  refine ⟨?_, ?_, ?_, ?_⟩
  · simp only [ReaderOps.starts_with, EvBuffer.reader, EvBuffer.size, EvBuffer.data,
      Bool.and_eq_true, decide_eq_true_eq, beq_iff_eq]
    constructor
    · exact fun h => Or.inr h
    · rintro (rfl | h)
      · simp
      · exact h
  · intro h
    have h2 : ¬ needle.length ≤ b.content.length := Nat.not_le_of_lt h
    simp [ReaderOps.starts_with, EvBuffer.reader, EvBuffer.size, EvBuffer.data, h2]
  · simp only [ReaderOps.starts_with, SmallBufferState.reader, SmallBufferState.size,
      SmallBufferState.data, Bool.and_eq_true, decide_eq_true_eq, beq_iff_eq,
      SmallBufferState.contents, List.take_take]
    constructor
    · rintro ⟨h1, h2⟩
      exact Or.inr ⟨h1, by rwa [Nat.min_eq_left h1]⟩
    · rintro (rfl | ⟨h1, h2⟩)
      · simp
      · exact ⟨h1, by rwa [Nat.min_eq_left h1] at h2⟩
  · intro h
    have h2 : ¬ nd.length ≤ s.committed_size := Nat.not_le_of_lt h
    simp [ReaderOps.starts_with, SmallBufferState.reader, SmallBufferState.size,
      SmallBufferState.data, h2]

/-- Claim C9: `to_string()` returns exactly the buffer's `size()` remaining
bytes in order and does not drain: afterwards the buffer's size and content
are exactly as before, for both buffer kinds. -/
theorem claim_C9 (b : EvBuffer) (s : SmallBufferState) :
    (EvBuffer.reader.to_string b).1 = b.content ∧
      (EvBuffer.reader.to_string b).2 = b ∧
      (EvBuffer.reader.to_string b).2.size = b.size ∧
      (SmallBufferState.reader.to_string s).1 = s.contents ∧
      (SmallBufferState.reader.to_string s).2 = s ∧
      (SmallBufferState.reader.to_string s).2.size = s.size := by
  refine ⟨?_, rfl, rfl, rfl, rfl, rfl⟩
  simp [ReaderOps.to_string, EvBuffer.reader, EvBuffer.size, EvBuffer.data]

/-- Claim C10: constructing a `Buffer` directly from a byte sequence `d`
yields the same buffer as default-constructing and then calling `add(d)`:
its size is `len(d)` and its logical content is the bytes of `d` in order. -/
theorem claim_C10 (d : List Nat) :
    EvBuffer.ofData d = EvBuffer.writer.add EvBuffer.empty d ∧
      (EvBuffer.ofData d).size = d.length ∧
      (EvBuffer.ofData d).content = d := by
  refine ⟨rfl, ?_, ?_⟩ <;>
    simp [EvBuffer.ofData, EvBuffer.add_eq_ev, EvBuffer.empty, EvBuffer.size]

/-- Claim C2: for every host value `x` of width 8/16/32/64 bits,
`add_uintW(x)` appends exactly `W/8` bytes in big-endian (network) byte
order — in particular `add_uint32(456)` appends `[0x00, 0x00, 0x01, 0xC8]` —
and an immediately following `to_uintW()` on that buffer returns `x` and
decreases `size()` by `W/8` (from `W/8` down to 0). -/
theorem claim_C2 (b : EvBuffer) (x1 x2 x4 x8 : Nat)
    (h1 : x1 < 2 ^ 8) (h2 : x2 < 2 ^ 16) (h4 : x4 < 2 ^ 32) (h8 : x8 < 2 ^ 64) :
    ((EvBuffer.writer.add_uint8 b x1).content = b.content ++ beBytes 1 x1 ∧
      (EvBuffer.writer.add_uint16 b x2).content = b.content ++ beBytes 2 x2 ∧
      (EvBuffer.writer.add_uint32 b x4).content = b.content ++ beBytes 4 x4 ∧
      (EvBuffer.writer.add_uint64 b x8).content = b.content ++ beBytes 8 x8) ∧
    ((beBytes 1 x1).length = 1 ∧ (beBytes 2 x2).length = 2 ∧
      (beBytes 4 x4).length = 4 ∧ (beBytes 8 x8).length = 8) ∧
    beBytes 4 456 = [0x00, 0x00, 0x01, 0xC8] ∧
    ((EvBuffer.writer.add_uint8 EvBuffer.empty x1).size = 1 ∧
      (EvBuffer.reader.to_uint8 (EvBuffer.writer.add_uint8 EvBuffer.empty x1)).1 = x1 ∧
      (EvBuffer.reader.to_uint8 (EvBuffer.writer.add_uint8 EvBuffer.empty x1)).2.size = 0) ∧
    ((EvBuffer.writer.add_uint16 EvBuffer.empty x2).size = 2 ∧
      (EvBuffer.reader.to_uint16 (EvBuffer.writer.add_uint16 EvBuffer.empty x2)).1 = x2 ∧
      (EvBuffer.reader.to_uint16 (EvBuffer.writer.add_uint16 EvBuffer.empty x2)).2.size = 0) ∧
    ((EvBuffer.writer.add_uint32 EvBuffer.empty x4).size = 4 ∧
      (EvBuffer.reader.to_uint32 (EvBuffer.writer.add_uint32 EvBuffer.empty x4)).1 = x4 ∧
      (EvBuffer.reader.to_uint32 (EvBuffer.writer.add_uint32 EvBuffer.empty x4)).2.size = 0) ∧
    ((EvBuffer.writer.add_uint64 EvBuffer.empty x8).size = 8 ∧
      (EvBuffer.reader.to_uint64 (EvBuffer.writer.add_uint64 EvBuffer.empty x8)).1 = x8 ∧
      (EvBuffer.reader.to_uint64 (EvBuffer.writer.add_uint64 EvBuffer.empty x8)).2.size = 0) := by
  have g1 : x1 < 256 ^ 1 := by norm_num at h1 ⊢; omega
  have g2 : x2 < 256 ^ 2 := by norm_num at h2 ⊢; omega
  have g4 : x4 < 256 ^ 4 := by norm_num at h4 ⊢; omega
  have g8 : x8 < 256 ^ 8 := by norm_num at h8 ⊢; omega
  refine ⟨⟨?_, ?_, ?_, ?_⟩,
    ⟨beBytes_length _ _, beBytes_length _ _, beBytes_length _ _, beBytes_length _ _⟩,
    by decide, ?_, ?_, ?_, ?_⟩
  · simp [WriterOps.add_uint8, EvBuffer.add_eq_ev]
  · simp [WriterOps.add_uint16, EvBuffer.add_eq_ev]
  · simp [WriterOps.add_uint32, EvBuffer.add_eq_ev]
  · simp [WriterOps.add_uint64, EvBuffer.add_eq_ev]
  · exact EvBuffer.roundtrip 1 x1 g1
  · exact EvBuffer.roundtrip 2 x2 g2
  · exact EvBuffer.roundtrip 4 x4 g4
  · exact EvBuffer.roundtrip 8 x8 g8

/-- Witness for C2 at concrete values (x = 200 for 8 bits, 456 for the
wider widths), starting from an empty buffer. -/
theorem claim_C2_witness :
    (200 < 2 ^ 8 ∧ 456 < 2 ^ 16 ∧ 456 < 2 ^ 32 ∧ 456 < 2 ^ 64) ∧
      (((EvBuffer.writer.add_uint8 EvBuffer.empty 200).content =
          EvBuffer.empty.content ++ beBytes 1 200 ∧
        (EvBuffer.writer.add_uint16 EvBuffer.empty 456).content =
          EvBuffer.empty.content ++ beBytes 2 456 ∧
        (EvBuffer.writer.add_uint32 EvBuffer.empty 456).content =
          EvBuffer.empty.content ++ beBytes 4 456 ∧
        (EvBuffer.writer.add_uint64 EvBuffer.empty 456).content =
          EvBuffer.empty.content ++ beBytes 8 456) ∧
      ((beBytes 1 200).length = 1 ∧ (beBytes 2 456).length = 2 ∧
        (beBytes 4 456).length = 4 ∧ (beBytes 8 456).length = 8) ∧
      beBytes 4 456 = [0x00, 0x00, 0x01, 0xC8] ∧
      ((EvBuffer.writer.add_uint8 EvBuffer.empty 200).size = 1 ∧
        (EvBuffer.reader.to_uint8 (EvBuffer.writer.add_uint8 EvBuffer.empty 200)).1 =
          200 ∧
        (EvBuffer.reader.to_uint8
          (EvBuffer.writer.add_uint8 EvBuffer.empty 200)).2.size = 0) ∧
      ((EvBuffer.writer.add_uint16 EvBuffer.empty 456).size = 2 ∧
        (EvBuffer.reader.to_uint16 (EvBuffer.writer.add_uint16 EvBuffer.empty 456)).1 =
          456 ∧
        (EvBuffer.reader.to_uint16
          (EvBuffer.writer.add_uint16 EvBuffer.empty 456)).2.size = 0) ∧
      ((EvBuffer.writer.add_uint32 EvBuffer.empty 456).size = 4 ∧
        (EvBuffer.reader.to_uint32 (EvBuffer.writer.add_uint32 EvBuffer.empty 456)).1 =
          456 ∧
        (EvBuffer.reader.to_uint32
          (EvBuffer.writer.add_uint32 EvBuffer.empty 456)).2.size = 0) ∧
      ((EvBuffer.writer.add_uint64 EvBuffer.empty 456).size = 8 ∧
        (EvBuffer.reader.to_uint64 (EvBuffer.writer.add_uint64 EvBuffer.empty 456)).1 =
          456 ∧
        (EvBuffer.reader.to_uint64
          (EvBuffer.writer.add_uint64 EvBuffer.empty 456)).2.size = 0)) :=
  ⟨⟨by decide, by decide, by decide, by decide⟩,
    claim_C2 EvBuffer.empty 200 456 456 456 (by decide) (by decide) (by decide)
      (by decide)⟩

/-- Claim C3: for both buffer kinds with current size `s`,
`reserve_space(n)` grants capacity at least `n`, and a following
`commit_space(k)` with `k ≤ n` increases `size()` by exactly `k`, the bytes
at logical positions `[s, s+k)` being the bytes written into the reserved
region before the commit. -/
theorem claim_C3 (b : EvBuffer) (s : SmallBufferState) (N n k : Nat)
    (w : List Nat) (hw : w.length = n) (hk : k ≤ n) (hs : s.wf) :
    (n ≤ (b.reserve_space n).2 ∧
      (((b.reserve_space n).1.write_reserved w).commit_space k).size = b.size + k ∧
      (((b.reserve_space n).1.write_reserved w).commit_space k).content =
        b.content ++ w.take k ∧
      ((((b.reserve_space n).1.write_reserved w).commit_space k).content).drop b.size =
        w.take k) ∧
    (n ≤ (SmallBufferState.reserve_space N s n).2 ∧
      (((SmallBufferState.reserve_space N s n).1.write_reserved w).commit_space k).size =
        s.size + k ∧
      (((SmallBufferState.reserve_space N s n).1.write_reserved w).commit_space k).contents =
        s.contents ++ w.take k ∧
      ((((SmallBufferState.reserve_space N s n).1.write_reserved w).commit_space
          k).contents).drop s.size = w.take k) := by
  subst hw
  have hww : s.committed_size ≤ s.buf.length := hs
  have hkw : k ≤ w.length := hk
  have htk : (w.take k).length = k := by
    simp [List.length_take]
    omega
  have hscr : k ≤ (w ++ (padZero b.scratch w.length).drop w.length).length := by
    simp
    omega
  have hev : ((b.reserve_space w.length).1.write_reserved w).commit_space k =
      ⟨b.content ++ w.take k,
        (w ++ (padZero b.scratch w.length).drop w.length).drop k⟩ := by
    simp only [EvBuffer.reserve_space, EvBuffer.write_reserved, EvBuffer.commit_space,
      padZero_of_le hscr, List.take_append_of_le_length hkw]
  have hcl : (s.buf.take s.committed_size).length = s.committed_size := by
    simp [List.length_take]
    omega
  have hsm : ((SmallBufferState.reserve_space N s w.length).1.write_reserved
      w).commit_space k =
      ⟨s.buf.take s.committed_size ++ w, s.committed_size + k⟩ := by
    rw [SmallBufferState.reserve_write_eq N w hs, SmallBufferState.commit_space]
  refine ⟨⟨?_, ?_, ?_, ?_⟩, ?_, ?_, ?_, ?_⟩
  · rw [EvBuffer.reserve_space, padZero_length]
    omega
  · rw [hev]
    simp only [EvBuffer.size, List.length_append, htk]
  · rw [hev]
  · rw [hev]
    simp only [EvBuffer.size, List.drop_left]
  · rw [SmallBufferState.reserve_space]
    simp only [listResize_length]
    omega
  · rw [hsm]
    rfl
  · rw [hsm]
    show (s.buf.take s.committed_size ++ w).take (s.committed_size + k) = _
    rw [show s.committed_size + k = (s.buf.take s.committed_size).length + k by rw [hcl],
      List.take_append]
    rfl
  · rw [hsm]
    show ((s.buf.take s.committed_size ++ w).take (s.committed_size + k)).drop
        s.committed_size = _
    rw [show s.committed_size + k = (s.buf.take s.committed_size).length + k by rw [hcl],
      List.take_append]
    have hdl := List.drop_left (s.buf.take s.committed_size) (w.take k)
    rwa [hcl] at hdl

/-- Witness for C3 at a concrete starting buffer of one byte: reserving 3
bytes, writing `[1, 2, 3]` into the reservation and committing 2 grows the
size by 2 and appends `[1, 2]`. -/
theorem claim_C3_witness :
    (([1, 2, 3] : List Nat).length = 3 ∧ 2 ≤ 3 ∧
        SmallBufferState.wf (SmallBufferState.mk [9] 1)) ∧
      ((3 ≤ (EvBuffer.reserve_space (EvBuffer.mk [9] []) 3).2 ∧
        (((EvBuffer.reserve_space (EvBuffer.mk [9] []) 3).1.write_reserved
            [1, 2, 3]).commit_space 2).size = (EvBuffer.mk [9] []).size + 2 ∧
        (((EvBuffer.reserve_space (EvBuffer.mk [9] []) 3).1.write_reserved
            [1, 2, 3]).commit_space 2).content = [9] ++ List.take 2 [1, 2, 3] ∧
        ((((EvBuffer.reserve_space (EvBuffer.mk [9] []) 3).1.write_reserved
            [1, 2, 3]).commit_space 2).content).drop (EvBuffer.mk [9] []).size =
          List.take 2 [1, 2, 3]) ∧
      (3 ≤ (SmallBufferState.reserve_space 4 (SmallBufferState.mk [9] 1) 3).2 ∧
        (((SmallBufferState.reserve_space 4 (SmallBufferState.mk [9] 1)
            3).1.write_reserved [1, 2, 3]).commit_space 2).size =
          (SmallBufferState.mk [9] 1).size + 2 ∧
        (((SmallBufferState.reserve_space 4 (SmallBufferState.mk [9] 1)
            3).1.write_reserved [1, 2, 3]).commit_space 2).contents =
          (SmallBufferState.mk [9] 1).contents ++ List.take 2 [1, 2, 3] ∧
        ((((SmallBufferState.reserve_space 4 (SmallBufferState.mk [9] 1)
            3).1.write_reserved [1, 2, 3]).commit_space 2).contents).drop
          (SmallBufferState.mk [9] 1).size = List.take 2 [1, 2, 3])) :=
  ⟨⟨by decide, by decide, by decide⟩,
    claim_C3 (EvBuffer.mk [9] []) (SmallBufferState.mk [9] 1) 4 3 2 [1, 2, 3]
      (by decide) (by decide) (by decide)⟩

/-- Counterexample to claim C4 as stated: a buffer holding the single byte
`0xAB` (= 171) decoded with `to_uint16()` returns `0xAB00` (= 43776) — the
available byte lands in the high-order position of the result — not `0x00AB`
(= 171), which is what placing it in the low-order byte position would give. -/
theorem claim_C4_counterexample :
    (EvBuffer.reader.to_uint16 ⟨[171], []⟩).1 = 43776 ∧
      ¬ (EvBuffer.reader.to_uint16 ⟨[171], []⟩).1 = 171 := by
  decide

/-- Claim C4 (amended): for every buffer holding `k` bytes with
`k < sizeof(T)`, for `T` in {uint8, uint16, uint32, uint64}, the decoder
`to_uintT()` drains exactly the `k` available bytes (leaving the buffer
empty) and returns the value in which those `k` bytes occupy the high-order
(most significant) byte positions of the result, in order, with the
remaining low-order bytes zero: the result is `beVal(bytes) * 256^(W/8-k)`. -/
theorem claim_C4_amended (b1 b2 b4 b8 : EvBuffer) (s1 s2 s4 s8 : SmallBufferState)
    (hb1 : b1.size < 1) (hb2 : b2.size < 2) (hb4 : b4.size < 4) (hb8 : b8.size < 8)
    (hw1 : s1.wf) (hw2 : s2.wf) (hw4 : s4.wf) (hw8 : s8.wf)
    (hs1 : s1.size < 1) (hs2 : s2.size < 2) (hs4 : s4.size < 4) (hs8 : s8.size < 8) :
    ((EvBuffer.reader.to_uint8 b1).1 = beVal b1.content * 256 ^ (1 - b1.size) ∧
      (EvBuffer.reader.to_uint8 b1).2.content = [] ∧
      (EvBuffer.reader.to_uint8 b1).2.size = 0) ∧
    ((EvBuffer.reader.to_uint16 b2).1 = beVal b2.content * 256 ^ (2 - b2.size) ∧
      (EvBuffer.reader.to_uint16 b2).2.content = [] ∧
      (EvBuffer.reader.to_uint16 b2).2.size = 0) ∧
    ((EvBuffer.reader.to_uint32 b4).1 = beVal b4.content * 256 ^ (4 - b4.size) ∧
      (EvBuffer.reader.to_uint32 b4).2.content = [] ∧
      (EvBuffer.reader.to_uint32 b4).2.size = 0) ∧
    ((EvBuffer.reader.to_uint64 b8).1 = beVal b8.content * 256 ^ (8 - b8.size) ∧
      (EvBuffer.reader.to_uint64 b8).2.content = [] ∧
      (EvBuffer.reader.to_uint64 b8).2.size = 0) ∧
    ((SmallBufferState.reader.to_uint8 s1).1 =
        beVal s1.contents * 256 ^ (1 - s1.size) ∧
      (SmallBufferState.reader.to_uint8 s1).2.contents = [] ∧
      (SmallBufferState.reader.to_uint8 s1).2.size = 0) ∧
    ((SmallBufferState.reader.to_uint16 s2).1 =
        beVal s2.contents * 256 ^ (2 - s2.size) ∧
      (SmallBufferState.reader.to_uint16 s2).2.contents = [] ∧
      (SmallBufferState.reader.to_uint16 s2).2.size = 0) ∧
    ((SmallBufferState.reader.to_uint32 s4).1 =
        beVal s4.contents * 256 ^ (4 - s4.size) ∧
      (SmallBufferState.reader.to_uint32 s4).2.contents = [] ∧
      (SmallBufferState.reader.to_uint32 s4).2.size = 0) ∧
    ((SmallBufferState.reader.to_uint64 s8).1 =
        beVal s8.contents * 256 ^ (8 - s8.size) ∧
      (SmallBufferState.reader.to_uint64 s8).2.contents = [] ∧
      (SmallBufferState.reader.to_uint64 s8).2.size = 0) :=
  ⟨EvBuffer.to_uint_short_ev 1 b1 hb1, EvBuffer.to_uint_short_ev 2 b2 hb2,
    EvBuffer.to_uint_short_ev 4 b4 hb4, EvBuffer.to_uint_short_ev 8 b8 hb8,
    SmallBufferState.to_uint_short_small 1 s1 hw1 hs1,
    SmallBufferState.to_uint_short_small 2 s2 hw2 hs2,
    SmallBufferState.to_uint_short_small 4 s4 hw4 hs4,
    SmallBufferState.to_uint_short_small 8 s8 hw8 hs8⟩

/-- Witness for the amended C4 at concrete short buffers, one per width and
buffer kind: e.g. `to_uint16` on the single byte `0xAB` yields
`0xAB * 256 = 0xAB00` and empties the buffer. -/
theorem claim_C4_amended_witness :
    ((EvBuffer.mk [] []).size < 1 ∧ (EvBuffer.mk [171] []).size < 2 ∧
      (EvBuffer.mk [1, 2] []).size < 4 ∧ (EvBuffer.mk [1, 2, 3] []).size < 8 ∧
      SmallBufferState.wf (SmallBufferState.mk [] 0) ∧
      SmallBufferState.wf (SmallBufferState.mk [171] 1) ∧
      SmallBufferState.wf (SmallBufferState.mk [9] 1) ∧
      SmallBufferState.wf (SmallBufferState.mk [5, 6] 2) ∧
      (SmallBufferState.mk [] 0).size < 1 ∧ (SmallBufferState.mk [171] 1).size < 2 ∧
      (SmallBufferState.mk [9] 1).size < 4 ∧ (SmallBufferState.mk [5, 6] 2).size < 8) ∧
    (((EvBuffer.reader.to_uint8 (EvBuffer.mk [] [])).1 =
        beVal (EvBuffer.mk [] []).content * 256 ^ (1 - (EvBuffer.mk [] []).size) ∧
      (EvBuffer.reader.to_uint8 (EvBuffer.mk [] [])).2.content = [] ∧
      (EvBuffer.reader.to_uint8 (EvBuffer.mk [] [])).2.size = 0) ∧
    ((EvBuffer.reader.to_uint16 (EvBuffer.mk [171] [])).1 =
        beVal (EvBuffer.mk [171] []).content * 256 ^ (2 - (EvBuffer.mk [171] []).size) ∧
      (EvBuffer.reader.to_uint16 (EvBuffer.mk [171] [])).2.content = [] ∧
      (EvBuffer.reader.to_uint16 (EvBuffer.mk [171] [])).2.size = 0) ∧
    ((EvBuffer.reader.to_uint32 (EvBuffer.mk [1, 2] [])).1 =
        beVal (EvBuffer.mk [1, 2] []).content *
          256 ^ (4 - (EvBuffer.mk [1, 2] []).size) ∧
      (EvBuffer.reader.to_uint32 (EvBuffer.mk [1, 2] [])).2.content = [] ∧
      (EvBuffer.reader.to_uint32 (EvBuffer.mk [1, 2] [])).2.size = 0) ∧
    ((EvBuffer.reader.to_uint64 (EvBuffer.mk [1, 2, 3] [])).1 =
        beVal (EvBuffer.mk [1, 2, 3] []).content *
          256 ^ (8 - (EvBuffer.mk [1, 2, 3] []).size) ∧
      (EvBuffer.reader.to_uint64 (EvBuffer.mk [1, 2, 3] [])).2.content = [] ∧
      (EvBuffer.reader.to_uint64 (EvBuffer.mk [1, 2, 3] [])).2.size = 0) ∧
    ((SmallBufferState.reader.to_uint8 (SmallBufferState.mk [] 0)).1 =
        beVal (SmallBufferState.mk [] 0).contents *
          256 ^ (1 - (SmallBufferState.mk [] 0).size) ∧
      (SmallBufferState.reader.to_uint8 (SmallBufferState.mk [] 0)).2.contents = [] ∧
      (SmallBufferState.reader.to_uint8 (SmallBufferState.mk [] 0)).2.size = 0) ∧
    ((SmallBufferState.reader.to_uint16 (SmallBufferState.mk [171] 1)).1 =
        beVal (SmallBufferState.mk [171] 1).contents *
          256 ^ (2 - (SmallBufferState.mk [171] 1).size) ∧
      (SmallBufferState.reader.to_uint16 (SmallBufferState.mk [171] 1)).2.contents =
        [] ∧
      (SmallBufferState.reader.to_uint16 (SmallBufferState.mk [171] 1)).2.size = 0) ∧
    ((SmallBufferState.reader.to_uint32 (SmallBufferState.mk [9] 1)).1 =
        beVal (SmallBufferState.mk [9] 1).contents *
          256 ^ (4 - (SmallBufferState.mk [9] 1).size) ∧
      (SmallBufferState.reader.to_uint32 (SmallBufferState.mk [9] 1)).2.contents = [] ∧
      (SmallBufferState.reader.to_uint32 (SmallBufferState.mk [9] 1)).2.size = 0) ∧
    ((SmallBufferState.reader.to_uint64 (SmallBufferState.mk [5, 6] 2)).1 =
        beVal (SmallBufferState.mk [5, 6] 2).contents *
          256 ^ (8 - (SmallBufferState.mk [5, 6] 2).size) ∧
      (SmallBufferState.reader.to_uint64 (SmallBufferState.mk [5, 6] 2)).2.contents =
        [] ∧
      (SmallBufferState.reader.to_uint64 (SmallBufferState.mk [5, 6] 2)).2.size = 0)) :=
  ⟨⟨by decide, by decide, by decide, by decide, by decide, by decide, by decide,
      by decide, by decide, by decide, by decide, by decide⟩,
    claim_C4_amended (EvBuffer.mk [] []) (EvBuffer.mk [171] []) (EvBuffer.mk [1, 2] [])
      (EvBuffer.mk [1, 2, 3] []) (SmallBufferState.mk [] 0) (SmallBufferState.mk [171] 1)
      (SmallBufferState.mk [9] 1) (SmallBufferState.mk [5, 6] 2) (by decide) (by decide)
      (by decide) (by decide) (by decide) (by decide) (by decide) (by decide) (by decide)
      (by decide) (by decide) (by decide)⟩

/-- Claim C7: on `SmallBuffer<N>`, appending `N+1` bytes succeeds, `size()`
then reports `N+1`, all `N+1` bytes read back correct and in order
(`to_buf` returns them all), and subsequent operations (a further `add`)
behave identically to before the spill: they still append at the tail. -/
theorem claim_C7 (N : Nat) (w w2 : List Nat) (h : w.length = N + 1) :
    ((SmallBufferState.writer N).add SmallBufferState.empty w).size = N + 1 ∧
      ((SmallBufferState.writer N).add SmallBufferState.empty w).contents = w ∧
      (SmallBufferState.reader.to_buf
        ((SmallBufferState.writer N).add SmallBufferState.empty w) (N + 1)).1 = w ∧
      (SmallBufferState.reader.to_buf
        ((SmallBufferState.writer N).add SmallBufferState.empty w) (N + 1)).2.1 = N + 1 ∧
      ((SmallBufferState.writer N).add
          ((SmallBufferState.writer N).add SmallBufferState.empty w) w2).contents =
        w ++ w2 ∧
      ((SmallBufferState.writer N).add
          ((SmallBufferState.writer N).add SmallBufferState.empty w) w2).size =
        (N + 1) + w2.length := by
  have hwf0 : SmallBufferState.empty.wf := Nat.zero_le _
  have hadd : (SmallBufferState.writer N).add SmallBufferState.empty w =
      ⟨w, N + 1⟩ := by
    rw [SmallBufferState.add_eq_small N w hwf0]
    simp [SmallBufferState.empty, h]
  have hwf1 : SmallBufferState.wf ⟨w, N + 1⟩ := by
    simp only [SmallBufferState.wf]
    omega
  refine ⟨?_, ?_, ?_, ?_, ?_, ?_⟩
  · rw [hadd]
    rfl
  · rw [hadd]
    show w.take (N + 1) = w
    rw [← h, List.take_length]
  · rw [hadd]
    simp only [ReaderOps.to_buf, SmallBufferState.reader, SmallBufferState.size,
      SmallBufferState.data, Nat.min_self]
    rw [← h, List.take_length]
  · rw [hadd]
    show min (N + 1) (N + 1) = N + 1
    exact Nat.min_self _
  · rw [hadd, SmallBufferState.add_eq_small N w2 hwf1]
    show (w.take (N + 1) ++ w2).take (N + 1 + w2.length) = w ++ w2
    rw [← h, List.take_length, ← List.length_append, List.take_length]
  · rw [hadd, SmallBufferState.add_eq_small N w2 hwf1]
    rfl

/-- Witness for C7: an `InlineBuffer(2)` accepts the 3 bytes `[1, 2, 3]`,
reports size 3, reads all 3 back in order, and a further `add` of `[4, 5]`
still appends at the tail. -/
theorem claim_C7_witness :
    ([1, 2, 3] : List Nat).length = 2 + 1 ∧
      (((SmallBufferState.writer 2).add SmallBufferState.empty [1, 2, 3]).size =
          2 + 1 ∧
        ((SmallBufferState.writer 2).add SmallBufferState.empty [1, 2, 3]).contents =
          [1, 2, 3] ∧
        (SmallBufferState.reader.to_buf
          ((SmallBufferState.writer 2).add SmallBufferState.empty [1, 2, 3])
          (2 + 1)).1 = [1, 2, 3] ∧
        (SmallBufferState.reader.to_buf
          ((SmallBufferState.writer 2).add SmallBufferState.empty [1, 2, 3])
          (2 + 1)).2.1 = 2 + 1 ∧
        ((SmallBufferState.writer 2).add
            ((SmallBufferState.writer 2).add SmallBufferState.empty [1, 2, 3])
            [4, 5]).contents = [1, 2, 3] ++ [4, 5] ∧
        ((SmallBufferState.writer 2).add
            ((SmallBufferState.writer 2).add SmallBufferState.empty [1, 2, 3])
            [4, 5]).size = (2 + 1) + ([4, 5] : List Nat).length) :=
  ⟨by decide, claim_C7 2 [1, 2, 3] [4, 5] (by decide)⟩

end Transmission
